import Mathlib

/-!
# IGMP command-line handlers (`src/plugins/igmp/cli.c`) and DHCP client commands

A shallow embedding of the three CLI handlers of the IGMP plugin
(`igmp_clear_interface_command_fn`, `igmp_listen_command_fn`,
`igmp_show_command_fn`) and of the equality of the VOM DHCP client commands
(`extras/vom/vom/dhcp_client_cmds.hpp`).

Conventions of the embedding:

* the global `igmp_main` is passed in and returned explicitly;
* a pool is the list of its live elements in `pool_foreach` order, and a pointer
  into a pool is the position of the element in that list;
* the text of a command line is seen through the `unformat` calls made at the
  head of the parsing loop: one `Tok` per loop iteration, saying which of the
  formats tried by the handlers matches there (`Tok.other` when none of them
  does).  The lexing itself belongs to vppinfra;
* functions of other compilation units (`igmp_listen`, `igmp_config_lookup`,
  `igmp_clear_config`, `vnet_sw_interface_get_flags`) and the two flag constants
  are fields of `Env`; every invocation of the three igmp functions is appended
  to a call log so that "is invoked" can be stated;
* locals that the C code leaves uninitialised start with the arbitrary contents
  of the stack frame, which is an argument of the handler.
-/

namespace Igmp

/-! ## Data model -/

/-- An `ip46_address_t`, kept as the number its 128 bits spell. -/
abbrev ip46_address_t := Nat

/-- The fields of `igmp_src_t` read by `cli.c`. -/
structure igmp_src_t where
  addr : ip46_address_t
deriving DecidableEq, Repr

/-- The fields of `igmp_group_t` read by `cli.c`; `srcs` is the pool of sources. -/
structure igmp_group_t where
  type : Nat
  addr : ip46_address_t
  srcs : List igmp_src_t
deriving DecidableEq, Repr

/-- The fields of `igmp_config_t` read by `cli.c`; `groups` is the pool of groups. -/
structure igmp_config_t where
  sw_if_index : Nat
  groups : List igmp_group_t
deriving DecidableEq, Repr

/-- The part of `igmp_main_t` used by `cli.c`: the pool of interface configs. -/
structure igmp_main_t where
  configs : List igmp_config_t
deriving DecidableEq, Repr

/-- What the `unformat` calls at the head of a parsing loop find at the current
position of the line: `enable`, `disable`, `int %U` with a known interface,
`saddr %U` / `gaddr %U` with a parsable address, or text that matches none. -/
inductive Tok where
  | enable
  | disable
  | int (sw_if_index : Nat)
  | saddr (a : ip46_address_t)
  | gaddr (a : ip46_address_t)
  | other (text : String)
deriving DecidableEq, Repr

/-- A `clib_error_t *` that is not NULL.  `unknown_input rest` is
`clib_error_return (0, "unknown input '%U'", format_unformat_error, line_input)`
with `rest` the unconsumed part of the line. -/
inductive clib_error_t where
  | msg (what : String)
  | unknown_input (rest : List Tok)
deriving DecidableEq, Repr

/-- One invocation of a function of `igmp.c` made by a handler. -/
inductive Call where
  | igmp_listen (enable : Nat) (sw_if_index : Nat) (saddr gaddr : ip46_address_t) (flags : Nat)
  | igmp_config_lookup (sw_if_index : Nat)
  | igmp_clear_config (config : Nat)
deriving DecidableEq, Repr

/-- Everything `cli.c` uses from other compilation units. -/
structure Env where
  vnet_sw_interface_get_flags : Nat → Nat
  VNET_SW_INTERFACE_FLAG_ADMIN_UP : Nat
  IGMP_CONFIG_FLAG_CLI_API_CONFIGURED : Nat
  igmp_listen : igmp_main_t → Nat → Nat → ip46_address_t → ip46_address_t → Nat → Int × igmp_main_t
  igmp_config_lookup : igmp_main_t → Nat → Option Nat
  igmp_clear_config : igmp_main_t → Nat → igmp_main_t

/-- One `vlib_cli_output` of `igmp_show_command_fn`, by its format string:
`"interface: %U"`, `"\t%U:%U"` (report type and group address) and `"\t\t%U"`
(source address). -/
inductive Line where
  | interface (sw_if_index : Nat)
  | group (type : Nat) (addr : ip46_address_t)
  | src (addr : ip46_address_t)
deriving DecidableEq, Repr

/-- What a handler leaves behind: the returned error (`none` is NULL), the
resulting `igmp_main`, the log of calls into `igmp.c` and the lines printed. -/
structure cmd_result where
  error : Option clib_error_t
  im : igmp_main_t
  calls : List Call
  output : List Line

/-- The C operator `a && b` on integers. -/
def c_land (a b : Nat) : Nat := if a ≠ 0 ∧ b ≠ 0 then 1 else 0

/-! ## `igmp listen` -/

/-- The locals of `igmp_listen_command_fn` written by the parsing loop. -/
structure listen_locals where
  enable : Nat
  sw_if_index : Nat
  saddr : ip46_address_t
  gaddr : ip46_address_t
deriving DecidableEq, Repr

/-- The `while (unformat_check_input (line_input) != UNFORMAT_END_OF_INPUT)` loop
of `igmp_listen_command_fn` (lines 101-122). -/
def igmp_listen_parse (l : listen_locals) : List Tok → Except clib_error_t listen_locals
  | [] => .ok l
  | Tok.enable :: rest => igmp_listen_parse { l with enable := 1 } rest
  | Tok.disable :: rest => igmp_listen_parse { l with enable := 0 } rest
  | Tok.int i :: rest => igmp_listen_parse { l with sw_if_index := i } rest
  | Tok.saddr a :: rest => igmp_listen_parse { l with saddr := a } rest
  | Tok.gaddr a :: rest => igmp_listen_parse { l with gaddr := a } rest
  | Tok.other s :: rest => .error (clib_error_t.unknown_input (Tok.other s :: rest))

/-- The condition of the `if` at lines 124-125, as written:
`(vnet_sw_interface_get_flags (vnm, sw_if_index) && VNET_SW_INTERFACE_FLAG_ADMIN_UP) == 0`. -/
def listen_interface_is_down (env : Env) (sw_if_index : Nat) : Bool :=
  c_land (env.vnet_sw_interface_get_flags sw_if_index) env.VNET_SW_INTERFACE_FLAG_ADMIN_UP == 0

/-- The handler `igmp_listen_command_fn`.  `input` is `none` when
`unformat_user (input, unformat_line_input, line_input)` fails; `stack` gives the
initial contents of the uninitialised locals (`enable` is initialised to 1). -/
def igmp_listen_command_fn (env : Env) (im : igmp_main_t) (input : Option (List Tok))
    (stack : listen_locals) : cmd_result :=
  match input with
  | none =>
    { error := some (clib_error_t.msg "'help igmp listen' or 'igmp listen ?' for help"),
      im := im, calls := [], output := [] }
  | some line_input =>
    match igmp_listen_parse { stack with enable := 1 } line_input with
    | .error e => { error := some e, im := im, calls := [], output := [] }
    | .ok l =>
      if listen_interface_is_down env l.sw_if_index then
        { error := some (clib_error_t.msg "Interface is down"),
          im := im, calls := [], output := [] }
      else
        let r := env.igmp_listen im l.enable l.sw_if_index l.saddr l.gaddr
          env.IGMP_CONFIG_FLAG_CLI_API_CONFIGURED
        let calls := [Call.igmp_listen l.enable l.sw_if_index l.saddr l.gaddr
          env.IGMP_CONFIG_FLAG_CLI_API_CONFIGURED]
        if r.1 = -1 then
          if l.enable ≠ 0 then
            { error := some (clib_error_t.msg "This igmp configuration already exists"),
              im := r.2, calls := calls, output := [] }
          else
            { error := some (clib_error_t.msg "This igmp configuration does not nexist"),
              im := r.2, calls := calls, output := [] }
        else if r.1 = -2 then
          { error := some (clib_error_t.msg
              "Failed to add configuration, interface is in router mode"),
            im := r.2, calls := calls, output := [] }
        else
          { error := none, im := r.2, calls := calls, output := [] }

/-! ## `clear igmp` -/

/-- The parsing loop of `igmp_clear_interface_command_fn` (lines 50-62); the
argument is the current value of the local `sw_if_index`. -/
def igmp_clear_parse (sw_if_index : Nat) : List Tok → Except clib_error_t Nat
  | [] => .ok sw_if_index
  | Tok.int i :: rest => igmp_clear_parse i rest
  | Tok.enable :: rest => .error (clib_error_t.unknown_input (Tok.enable :: rest))
  | Tok.disable :: rest => .error (clib_error_t.unknown_input (Tok.disable :: rest))
  | Tok.saddr a :: rest => .error (clib_error_t.unknown_input (Tok.saddr a :: rest))
  | Tok.gaddr a :: rest => .error (clib_error_t.unknown_input (Tok.gaddr a :: rest))
  | Tok.other s :: rest => .error (clib_error_t.unknown_input (Tok.other s :: rest))

/-- The handler `igmp_clear_interface_command_fn`.  `input` is `none` when
`unformat_user (input, unformat_line_input, line_input)` fails; `stack` is the
initial content of the uninitialised local `sw_if_index`. -/
def igmp_clear_interface_command_fn (env : Env) (im : igmp_main_t)
    (input : Option (List Tok)) (stack : Nat) : cmd_result :=
  match input with
  | none =>
    { error := some (clib_error_t.msg "'help clear igmp' or 'clear igmp ?' for help"),
      im := im, calls := [], output := [] }
  | some line_input =>
    match igmp_clear_parse stack line_input with
    | .error e => { error := some e, im := im, calls := [], output := [] }
    | .ok sw_if_index =>
      match env.igmp_config_lookup im sw_if_index with
      | some config =>
        { error := none, im := env.igmp_clear_config im config,
          calls := [Call.igmp_config_lookup sw_if_index, Call.igmp_clear_config config],
          output := [] }
      | none =>
        { error := none, im := im, calls := [Call.igmp_config_lookup sw_if_index],
          output := [] }

/-! ## `show igmp config` -/

/-- The innermost `pool_foreach (src, group->srcs, ...)` of `igmp_show_command_fn`;
`out` is what has been printed so far. -/
def show_srcs (out : List Line) : List igmp_src_t → List Line
  | [] => out
  | src :: rest => show_srcs (out ++ [Line.src src.addr]) rest

/-- The `pool_foreach (group, config->groups, ...)` of `igmp_show_command_fn`. -/
def show_groups (out : List Line) : List igmp_group_t → List Line
  | [] => out
  | group :: rest =>
    show_groups (show_srcs (out ++ [Line.group group.type group.addr]) group.srcs) rest

/-- The outer `pool_foreach (config, im->configs, ...)` of `igmp_show_command_fn`. -/
def show_configs (out : List Line) : List igmp_config_t → List Line
  | [] => out
  | config :: rest =>
    show_configs (show_groups (out ++ [Line.interface config.sw_if_index]) config.groups) rest

/-- The handler `igmp_show_command_fn`: it never reads its input. -/
def igmp_show_command_fn (im : igmp_main_t) (_input : Option (List Tok)) : cmd_result :=
  { error := none, im := im, calls := [], output := show_configs [] im.configs }

/-! ## Reading a command line and the printed lines -/

/-- The formats tried by the loop of `igmp_listen_command_fn`. -/
def Tok.listen_accepts : Tok → Bool
  | Tok.other _ => false
  | _ => true

/-- The one format tried by the loop of `igmp_clear_interface_command_fn`. -/
def Tok.clear_accepts : Tok → Bool
  | Tok.int _ => true
  | _ => false

/-- An `enable` or `disable` token. -/
def Tok.is_mode : Tok → Bool
  | Tok.enable => true
  | Tok.disable => true
  | _ => false

/-- The interface of an `int <interface>` token. -/
def Tok.as_int : Tok → Option Nat
  | Tok.int i => some i
  | _ => none

/-- The address of a `saddr <addr>` token. -/
def Tok.as_saddr : Tok → Option ip46_address_t
  | Tok.saddr a => some a
  | _ => none

/-- The address of a `gaddr <addr>` token. -/
def Tok.as_gaddr : Tok → Option ip46_address_t
  | Tok.gaddr a => some a
  | _ => none

/-- The request a line of accepted tokens asks for, read off the line as a
whole: the mode is that of the last `enable`/`disable` token (enable when there
is none); interface, source and group are those of the last `int`, `saddr` and
`gaddr` token, and what the stack held where the line names none. -/
def listen_request (stack : listen_locals) (toks : List Tok) : listen_locals :=
  { enable := if (toks.filter Tok.is_mode).getLast? = some Tok.disable then 0 else 1,
    sw_if_index := ((toks.filterMap Tok.as_int).getLast?).getD stack.sw_if_index,
    saddr := ((toks.filterMap Tok.as_saddr).getLast?).getD stack.saddr,
    gaddr := ((toks.filterMap Tok.as_gaddr).getLast?).getD stack.gaddr }

/-- The listing `show igmp config` is described to print: per config one
interface line, then per group of it one group line followed by one line per
source of that group. -/
def show_spec (im : igmp_main_t) : List Line :=
  im.configs.flatMap fun c =>
    Line.interface c.sw_if_index ::
      c.groups.flatMap fun g =>
        Line.group g.type g.addr :: g.srcs.map fun s => Line.src s.addr

/-- Number of groups in the tree. -/
def igmp_main_t.n_groups (im : igmp_main_t) : Nat :=
  (im.configs.map fun c => c.groups.length).sum

/-- Number of sources in the tree. -/
def igmp_main_t.n_srcs (im : igmp_main_t) : Nat :=
  (im.configs.map fun c => (c.groups.map fun g => g.srcs.length).sum).sum

/-- Reading a listing top to bottom: is there a source line `saddr` whose nearest
preceding group line is for `gaddr` and whose nearest preceding interface line is
for `sw_if_index`, the group line coming after that interface line?  `ci` and
`cg` are the interface and group the reader is currently under. -/
def listed (sw_if_index : Nat) (gaddr saddr : ip46_address_t) :
    Option Nat → Option ip46_address_t → List Line → Bool
  | _, _, [] => false
  | _, _, Line.interface j :: rest => listed sw_if_index gaddr saddr (some j) none rest
  | ci, _, Line.group _ a :: rest => listed sw_if_index gaddr saddr ci (some a) rest
  | ci, cg, Line.src a :: rest =>
    (ci == some sw_if_index && cg == some gaddr && a == saddr) ||
      listed sw_if_index gaddr saddr ci cg rest

/-- Reading a listing top to bottom: the group and source lines that stand under
an interface line for `sw_if_index`.  `under` says whether the reader currently
is under such a line. -/
def lines_under (sw_if_index : Nat) : Bool → List Line → List Line
  | _, [] => []
  | _, Line.interface j :: rest => lines_under sw_if_index (j == sw_if_index) rest
  | under, Line.group t a :: rest =>
    if under then Line.group t a :: lines_under sw_if_index under rest
    else lines_under sw_if_index under rest
  | under, Line.src a :: rest =>
    if under then Line.src a :: lines_under sw_if_index under rest
    else lines_under sw_if_index under rest

/-! ## The membership tree operations of `igmp.c` -/

/-- Position of the first element of a pool satisfying `p`. -/
def pool_find {α : Type} (p : α → Bool) : List α → Option Nat
  | [] => none
  | x :: xs => if p x then some 0 else (pool_find p xs).map (· + 1)

/-- Modelled from the spec: `igmp_config_lookup` of `igmp.c`, which is not among
the sources.  "Lookup by interface": the config whose interface id is
`sw_if_index`, as a pointer into the pool of configs, or NULL. -/
def igmp_config_lookup (im : igmp_main_t) (sw_if_index : Nat) : Option Nat :=
  pool_find (fun c => c.sw_if_index == sw_if_index) im.configs

/-- Modelled from the spec: `igmp_clear_config` of `igmp.c`, which is not among
the sources.  "Unconditionally removes the entire InterfaceConfig subtree (all
Groups and Sources)": the config the pointer designates leaves the pool together
with everything it owns. -/
def igmp_clear_config (im : igmp_main_t) (config : Nat) : igmp_main_t :=
  { im with configs := im.configs.eraseIdx config }

/-- Is (interface, group, source) Active in the tree? -/
def entry_active (im : igmp_main_t) (sw_if_index : Nat) (gaddr saddr : ip46_address_t) : Bool :=
  im.configs.any fun c =>
    c.sw_if_index == sw_if_index &&
      c.groups.any fun g => g.addr == gaddr && g.srcs.any fun s => s.addr == saddr

/-- Locate the group `gaddr` (create it, with report mode `type`, when there is
none) and add the source `saddr` to it. -/
def add_src_to_groups (type : Nat) (gaddr saddr : ip46_address_t) :
    List igmp_group_t → List igmp_group_t
  | [] => [{ type := type, addr := gaddr, srcs := [{ addr := saddr }] }]
  | g :: rest =>
    if g.addr = gaddr then { g with srcs := g.srcs ++ [{ addr := saddr }] } :: rest
    else g :: add_src_to_groups type gaddr saddr rest

/-- Locate the config of `sw_if_index` (create it when there is none) and add
the source `saddr` under its group `gaddr`. -/
def add_src_to_configs (type : Nat) (sw_if_index : Nat) (gaddr saddr : ip46_address_t) :
    List igmp_config_t → List igmp_config_t
  | [] => [{ sw_if_index := sw_if_index, groups := add_src_to_groups type gaddr saddr [] }]
  | c :: rest =>
    if c.sw_if_index = sw_if_index then
      { c with groups := add_src_to_groups type gaddr saddr c.groups } :: rest
    else c :: add_src_to_configs type sw_if_index gaddr saddr rest

/-- Remove the source `saddr` from the group `gaddr` of the config of
`sw_if_index`; a group left without sources is retained. -/
def remove_src_from_configs (sw_if_index : Nat) (gaddr saddr : ip46_address_t)
    (configs : List igmp_config_t) : List igmp_config_t :=
  configs.map fun c =>
    if c.sw_if_index = sw_if_index then
      { c with groups := c.groups.map fun g =>
          if g.addr = gaddr then { g with srcs := g.srcs.filter fun s => s.addr ≠ saddr }
          else g }
    else c

/-- Modelled from the spec: `igmp_listen` of `igmp.c`, which is not among the
sources.  Enable: an interface in router mode is a mode conflict (-2); an
already Active identical (interface, group, source) is a duplicate (-1, no
mutation); otherwise the InterfaceConfig and Group are created or located and the
Source is added (0).  Disable: a non-existent entry is not found (-1); otherwise
the Source is removed (0).  `router_mode` tells which interfaces are in router
mode and `type` is the report mode given to a group created here. -/
def igmp_listen (router_mode : Nat → Bool) (type : Nat) (im : igmp_main_t) (enable : Nat)
    (sw_if_index : Nat) (saddr gaddr : ip46_address_t) (_flags : Nat) : Int × igmp_main_t :=
  if enable ≠ 0 then
    if router_mode sw_if_index then (-2, im)
    else if entry_active im sw_if_index gaddr saddr then (-1, im)
    else (0, { im with configs := add_src_to_configs type sw_if_index gaddr saddr im.configs })
  else
    if entry_active im sw_if_index gaddr saddr then
      (0, { im with configs := remove_src_from_configs sw_if_index gaddr saddr im.configs })
    else (-1, im)

/-- The environment `env` with the three functions of `igmp.c` as modelled above. -/
def membership_env (env : Env) (router_mode : Nat → Bool) (type : Nat) : Env :=
  { env with
    igmp_listen := igmp_listen router_mode type,
    igmp_config_lookup := igmp_config_lookup,
    igmp_clear_config := igmp_clear_config }

/-- An environment where admin-up is flag bit 0 and every interface carries the
flags word 2 (admin-up clear, another flag set); `igmp_listen` reports success. -/
def env_other_flag_only : Env :=
  { vnet_sw_interface_get_flags := fun _ => 2,
    VNET_SW_INTERFACE_FLAG_ADMIN_UP := 1,
    IGMP_CONFIG_FLAG_CLI_API_CONFIGURED := 1,
    igmp_listen := fun im _ _ _ _ _ => (0, im),
    igmp_config_lookup := fun _ _ => none,
    igmp_clear_config := fun im _ => im }

/-- An environment where admin-up is flag bit 0, every interface carries the
flags word 1, and `igmp_listen` returns `rv` without touching the tree. -/
def env_admin_up (rv : Int) : Env :=
  { vnet_sw_interface_get_flags := fun _ => 1,
    VNET_SW_INTERFACE_FLAG_ADMIN_UP := 1,
    IGMP_CONFIG_FLAG_CLI_API_CONFIGURED := 1,
    igmp_listen := fun im _ _ _ _ _ => (rv, im),
    igmp_config_lookup := fun _ _ => none,
    igmp_clear_config := fun im _ => im }

/-- A tree with two interfaces: interface 1 with one group of one source,
interface 2 with a group of two sources and a group without sources. -/
def sample_tree : igmp_main_t :=
  { configs :=
      [{ sw_if_index := 1,
         groups := [{ type := 3, addr := 4009820417, srcs := [{ addr := 167772161 }] }] },
       { sw_if_index := 2,
         groups :=
           [{ type := 3, addr := 4009820418,
              srcs := [{ addr := 167772161 }, { addr := 167772162 }] },
            { type := 3, addr := 4009820419, srcs := [] }] }] }

end Igmp

namespace VOM

/-! ## DHCP client commands (`extras/vom/vom/dhcp_client_cmds.hpp`) -/

/-- The status-tracked value a command is bound to (`HW::item<T>`): the last
known remote state of one attribute. -/
inductive StateCell (T : Type) where
  | Unset
  | InProgress
  | Applied (value : T)
  | Failed (code : Int)
deriving DecidableEq, Repr

/-- A `handle_t`: the index of an interface. -/
abbrev handle_t := Nat

/-- An `l2_address_t`: the bytes of the address. -/
abbrev l2_address_t := List Nat

/-- The data members of `dhcp_client_cmds::bind_cmd`: the `HW::item<bool>` the
`rpc_cmd` base is bound to and the four private members. -/
structure bind_cmd where
  m_hw_item : StateCell Bool
  m_itf : handle_t
  m_hostname : String
  m_client_id : l2_address_t
  m_set_broadcast_flag : Bool
deriving DecidableEq, Repr

/-- The data members of `dhcp_client_cmds::unbind_cmd`. -/
structure unbind_cmd where
  m_hw_item : StateCell Bool
  m_itf : handle_t
  m_hostname : String
deriving DecidableEq, Repr

/-- The operation of a mutation command. -/
inductive Operation where
  | Bind
  | Unbind
deriving DecidableEq, Repr

/-- The key of a DHCP client object: interface and hostname. -/
structure ObjectKey where
  itf : handle_t
  hostname : String
deriving DecidableEq, Repr

/-- What a bind carries besides the key: client id and broadcast flag. -/
structure Payload where
  client_id : l2_address_t
  set_broadcast_flag : Bool
deriving DecidableEq, Repr

/-- A mutation command as the data model has it: key, operation, payload and the
bound cell. -/
structure MutationCommand where
  key : ObjectKey
  operation : Operation
  payload : Option Payload
  cell : StateCell Bool
deriving DecidableEq, Repr

/-- A `bind_cmd` as a mutation command. -/
def bind_cmd.to_mutation (c : bind_cmd) : MutationCommand :=
  { key := { itf := c.m_itf, hostname := c.m_hostname },
    operation := Operation.Bind,
    payload := some { client_id := c.m_client_id,
                      set_broadcast_flag := c.m_set_broadcast_flag },
    cell := c.m_hw_item }

/-- An `unbind_cmd` as a mutation command: it carries no payload. -/
def unbind_cmd.to_mutation (c : unbind_cmd) : MutationCommand :=
  { key := { itf := c.m_itf, hostname := c.m_hostname },
    operation := Operation.Unbind,
    payload := none,
    cell := c.m_hw_item }

/-- Modelled from the spec: the equality of mutation commands, "two
MutationCommands are equal iff (key, operation, payload) match". -/
def MutationCommand.equal (a b : MutationCommand) : Bool :=
  a.key == b.key && a.operation == b.operation && a.payload == b.payload

/-- Modelled from the spec: `bind_cmd::operator==`, declared at line 56 of the
header and defined in `dhcp_client_cmds.cpp`, which is not among the sources. -/
def bind_cmd.operator_eq (a b : bind_cmd) : Bool :=
  MutationCommand.equal a.to_mutation b.to_mutation

/-- Modelled from the spec: `unbind_cmd::operator==`, declared at line 106 of the
header and defined in `dhcp_client_cmds.cpp`, which is not among the sources. -/
def unbind_cmd.operator_eq (a b : unbind_cmd) : Bool :=
  MutationCommand.equal a.to_mutation b.to_mutation

end VOM

namespace Igmp

/-! ## Theorems -/

/-! ### The parsing loops -/

theorem igmp_listen_parse_ok (toks : List Tok) :
    ∀ l : listen_locals, toks.all Tok.listen_accepts = true →
      igmp_listen_parse l toks = .ok
        { enable :=
            match (toks.filter Tok.is_mode).getLast? with
            | some Tok.disable => 0
            | some _ => 1
            | none => l.enable,
          sw_if_index := ((toks.filterMap Tok.as_int).getLast?).getD l.sw_if_index,
          saddr := ((toks.filterMap Tok.as_saddr).getLast?).getD l.saddr,
          gaddr := ((toks.filterMap Tok.as_gaddr).getLast?).getD l.gaddr } := by
  induction toks with
  | nil => intro l _; rfl
  | cons t rest ih =>
    intro l h
    have hrest : rest.all Tok.listen_accepts = true := by
      simp only [List.all_cons, Bool.and_eq_true] at h
      exact h.2
    cases t with
    | other s => simp [Tok.listen_accepts] at h
    | enable =>
      rw [igmp_listen_parse, ih _ hrest]
      simp only [List.filter_cons, Tok.is_mode, List.filterMap_cons, Tok.as_int, Tok.as_saddr,
        Tok.as_gaddr, if_true, List.getLast?_cons]
      cases (List.filter Tok.is_mode rest).getLast? with
      | none => simp
      | some v => cases v <;> simp
    | disable =>
      rw [igmp_listen_parse, ih _ hrest]
      simp only [List.filter_cons, Tok.is_mode, List.filterMap_cons, Tok.as_int, Tok.as_saddr,
        Tok.as_gaddr, if_true, List.getLast?_cons]
      cases (List.filter Tok.is_mode rest).getLast? with
      | none => simp
      | some v => cases v <;> simp
    | int i =>
      rw [igmp_listen_parse, ih _ hrest]
      simp only [List.filter_cons, Tok.is_mode, List.filterMap_cons, Tok.as_int, Tok.as_saddr,
        Tok.as_gaddr, List.getLast?_cons]
      cases (List.filterMap Tok.as_int rest).getLast? <;> simp
    | saddr a =>
      rw [igmp_listen_parse, ih _ hrest]
      simp only [List.filter_cons, Tok.is_mode, List.filterMap_cons, Tok.as_int, Tok.as_saddr,
        Tok.as_gaddr, List.getLast?_cons]
      cases (List.filterMap Tok.as_saddr rest).getLast? <;> simp
    | gaddr a =>
      rw [igmp_listen_parse, ih _ hrest]
      simp only [List.filter_cons, Tok.is_mode, List.filterMap_cons, Tok.as_int, Tok.as_saddr,
        Tok.as_gaddr, List.getLast?_cons]
      cases (List.filterMap Tok.as_gaddr rest).getLast? <;> simp

theorem mode_getLast_cases (toks : List Tok) :
    (toks.filter Tok.is_mode).getLast? = none ∨
      (toks.filter Tok.is_mode).getLast? = some Tok.enable ∨
      (toks.filter Tok.is_mode).getLast? = some Tok.disable := by
  cases h : (toks.filter Tok.is_mode).getLast? with
  | none => exact Or.inl rfl
  | some t =>
    have hm : t ∈ toks.filter Tok.is_mode := List.mem_of_getLast?_eq_some h
    have ht : t.is_mode = true := (List.mem_filter.1 hm).2
    cases t <;> simp_all [Tok.is_mode]

theorem igmp_listen_parse_request (stack : listen_locals) (toks : List Tok)
    (h : toks.all Tok.listen_accepts = true) :
    igmp_listen_parse { stack with enable := 1 } toks = .ok (listen_request stack toks) := by
  rw [igmp_listen_parse_ok toks _ h]
  unfold listen_request
  rcases mode_getLast_cases toks with h1 | h1 | h1 <;> simp [h1]

theorem igmp_listen_parse_error (toks : List Tok) :
    ∀ l : listen_locals, toks.all Tok.listen_accepts = false →
      igmp_listen_parse l toks =
        .error (clib_error_t.unknown_input (toks.dropWhile Tok.listen_accepts)) := by
  induction toks with
  | nil => intro l h; simp at h
  | cons t rest ih =>
    intro l h
    cases t with
    | other s => simp [igmp_listen_parse, List.dropWhile, Tok.listen_accepts]
    | enable =>
      have hrest : rest.all Tok.listen_accepts = false := by simpa [Tok.listen_accepts] using h
      simp [igmp_listen_parse, ih _ hrest, List.dropWhile, Tok.listen_accepts]
    | disable =>
      have hrest : rest.all Tok.listen_accepts = false := by simpa [Tok.listen_accepts] using h
      simp [igmp_listen_parse, ih _ hrest, List.dropWhile, Tok.listen_accepts]
    | int i =>
      have hrest : rest.all Tok.listen_accepts = false := by simpa [Tok.listen_accepts] using h
      simp [igmp_listen_parse, ih _ hrest, List.dropWhile, Tok.listen_accepts]
    | saddr a =>
      have hrest : rest.all Tok.listen_accepts = false := by simpa [Tok.listen_accepts] using h
      simp [igmp_listen_parse, ih _ hrest, List.dropWhile, Tok.listen_accepts]
    | gaddr a =>
      have hrest : rest.all Tok.listen_accepts = false := by simpa [Tok.listen_accepts] using h
      simp [igmp_listen_parse, ih _ hrest, List.dropWhile, Tok.listen_accepts]

theorem igmp_listen_parse_error_unknown (toks : List Tok) (l : listen_locals) (e : clib_error_t)
    (h : igmp_listen_parse l toks = .error e) : ∃ rest, e = clib_error_t.unknown_input rest := by
  cases hall : toks.all Tok.listen_accepts with
  | true => rw [igmp_listen_parse_ok toks l hall] at h; cases h
  | false =>
    rw [igmp_listen_parse_error toks l hall] at h
    cases h
    exact ⟨_, rfl⟩

theorem igmp_clear_parse_ok (toks : List Tok) :
    ∀ i : Nat, toks.all Tok.clear_accepts = true →
      igmp_clear_parse i toks = .ok (((toks.filterMap Tok.as_int).getLast?).getD i) := by
  induction toks with
  | nil => intro i _; rfl
  | cons t rest ih =>
    intro i h
    have hrest : rest.all Tok.clear_accepts = true := by
      simp only [List.all_cons, Bool.and_eq_true] at h
      exact h.2
    cases t with
    | int j =>
      rw [igmp_clear_parse, ih _ hrest]
      simp only [List.filterMap_cons, Tok.as_int, List.getLast?_cons]
      cases (List.filterMap Tok.as_int rest).getLast? <;> simp
    | _ => simp [Tok.clear_accepts] at h

theorem igmp_clear_parse_error (toks : List Tok) :
    ∀ i : Nat, toks.all Tok.clear_accepts = false →
      igmp_clear_parse i toks =
        .error (clib_error_t.unknown_input (toks.dropWhile Tok.clear_accepts)) := by
  induction toks with
  | nil => intro i h; simp at h
  | cons t rest ih =>
    intro i h
    cases t with
    | int j =>
      have hrest : rest.all Tok.clear_accepts = false := by simpa [Tok.clear_accepts] using h
      simp [igmp_clear_parse, ih _ hrest, List.dropWhile, Tok.clear_accepts]
    | _ => simp [igmp_clear_parse, List.dropWhile, Tok.clear_accepts]

/-! ### The interface check of `igmp listen` -/

theorem listen_interface_is_down_iff (env : Env) (sw_if_index : Nat) :
    listen_interface_is_down env sw_if_index = false ↔
      (env.vnet_sw_interface_get_flags sw_if_index ≠ 0 ∧
        env.VNET_SW_INTERFACE_FLAG_ADMIN_UP ≠ 0) := by
  unfold listen_interface_is_down c_land
  split_ifs with h
  · simpa using h
  · simpa using h

theorem admin_up_bit_set_passes (env : Env) (sw_if_index : Nat)
    (h : env.vnet_sw_interface_get_flags sw_if_index &&&
      env.VNET_SW_INTERFACE_FLAG_ADMIN_UP ≠ 0) :
    listen_interface_is_down env sw_if_index = false := by
  rw [listen_interface_is_down_iff]
  constructor
  · intro h0
    apply h
    rw [h0]
    exact Nat.zero_and _
  · intro h0
    apply h
    rw [h0]
    exact Nat.and_zero _

/-- C1 (violated by the code): with admin-up being flag bit 0 and an interface
whose flags word is 2, so that the admin-up bit is clear while another flag is
set, `igmp listen int 0 saddr 1 gaddr 2` does not fail with "Interface is down":
`igmp_listen` is invoked and the command returns no error. -/
theorem listen_admin_bit_clear_other_flag_set :
    env_other_flag_only.vnet_sw_interface_get_flags 0 &&&
        env_other_flag_only.VNET_SW_INTERFACE_FLAG_ADMIN_UP = 0 ∧
      (igmp_listen_command_fn env_other_flag_only { configs := [] }
        (some [Tok.int 0, Tok.saddr 1, Tok.gaddr 2]) ⟨0, 0, 0, 0⟩).calls
        = [Call.igmp_listen 1 0 1 2 1] ∧
      (igmp_listen_command_fn env_other_flag_only { configs := [] }
        (some [Tok.int 0, Tok.saddr 1, Tok.gaddr 2]) ⟨0, 0, 0, 0⟩).error = none := by
  decide

end Igmp

namespace VOM

/-- C8: `bind_cmd::operator==` holds exactly when interface handle, hostname,
client id and broadcast flag agree, `unbind_cmd::operator==` exactly when
interface handle and hostname agree; both are reflexive, symmetric and
transitive, and neither depends on the status of the bound `HW::item`. -/
theorem dhcp_cmd_equality :
    (∀ a b : bind_cmd, a.operator_eq b = true ↔
      (a.m_itf = b.m_itf ∧ a.m_hostname = b.m_hostname ∧ a.m_client_id = b.m_client_id ∧
        a.m_set_broadcast_flag = b.m_set_broadcast_flag)) ∧
    (∀ a b : unbind_cmd, a.operator_eq b = true ↔
      (a.m_itf = b.m_itf ∧ a.m_hostname = b.m_hostname)) ∧
    (∀ a : bind_cmd, a.operator_eq a = true) ∧
    (∀ a b : bind_cmd, a.operator_eq b = b.operator_eq a) ∧
    (∀ a b c : bind_cmd, a.operator_eq b = true → b.operator_eq c = true →
      a.operator_eq c = true) ∧
    (∀ a : unbind_cmd, a.operator_eq a = true) ∧
    (∀ a b : unbind_cmd, a.operator_eq b = b.operator_eq a) ∧
    (∀ a b c : unbind_cmd, a.operator_eq b = true → b.operator_eq c = true →
      a.operator_eq c = true) ∧
    (∀ (a b : bind_cmd) (s t : StateCell Bool),
      bind_cmd.operator_eq { a with m_hw_item := s } { b with m_hw_item := t }
        = a.operator_eq b) ∧
    (∀ (a b : unbind_cmd) (s t : StateCell Bool),
      unbind_cmd.operator_eq { a with m_hw_item := s } { b with m_hw_item := t }
        = a.operator_eq b) := by
  have hb : ∀ a b : bind_cmd, a.operator_eq b = true ↔
      (a.m_itf = b.m_itf ∧ a.m_hostname = b.m_hostname ∧ a.m_client_id = b.m_client_id ∧
        a.m_set_broadcast_flag = b.m_set_broadcast_flag) := by
    intro a b
    simp [bind_cmd.operator_eq, MutationCommand.equal, bind_cmd.to_mutation, and_assoc]
  have hu : ∀ a b : unbind_cmd, a.operator_eq b = true ↔
      (a.m_itf = b.m_itf ∧ a.m_hostname = b.m_hostname) := by
    intro a b
    simp [unbind_cmd.operator_eq, MutationCommand.equal, unbind_cmd.to_mutation]
  refine ⟨hb, hu, ?_, ?_, ?_, ?_, ?_, ?_, ?_, ?_⟩
  · intro a
    exact (hb a a).2 ⟨rfl, rfl, rfl, rfl⟩
  · intro a b
    rw [Bool.eq_iff_iff, hb, hb]
    constructor <;> rintro ⟨h1, h2, h3, h4⟩ <;> exact ⟨h1.symm, h2.symm, h3.symm, h4.symm⟩
  · intro a b c hab hbc
    obtain ⟨h1, h2, h3, h4⟩ := (hb a b).1 hab
    obtain ⟨k1, k2, k3, k4⟩ := (hb b c).1 hbc
    exact (hb a c).2 ⟨h1.trans k1, h2.trans k2, h3.trans k3, h4.trans k4⟩
  · intro a
    exact (hu a a).2 ⟨rfl, rfl⟩
  · intro a b
    rw [Bool.eq_iff_iff, hu, hu]
    constructor <;> rintro ⟨h1, h2⟩ <;> exact ⟨h1.symm, h2.symm⟩
  · intro a b c hab hbc
    obtain ⟨h1, h2⟩ := (hu a b).1 hab
    obtain ⟨k1, k2⟩ := (hu b c).1 hbc
    exact (hu a c).2 ⟨h1.trans k1, h2.trans k2⟩
  · intro a b s t
    rw [Bool.eq_iff_iff, hb, hb]
  · intro a b s t
    rw [Bool.eq_iff_iff, hu, hu]

end VOM

namespace Igmp

/-! ### `igmp listen`: how the result of `igmp_listen` is reported -/

/-- C2: a well-formed `igmp listen` line asking for enable, on an interface that
passes the check of lines 124-125, for which `igmp_listen` returns -1: the
command returns "This igmp configuration already exists" (not the not-found or
the router-mode error), `igmp_listen` was its only call, and the tree it leaves
is the one `igmp_listen` left. -/
theorem listen_enable_duplicate (env : Env) (im : igmp_main_t) (toks : List Tok)
    (stack l : listen_locals)
    (hwf : toks.all Tok.listen_accepts = true)
    (hl : listen_request stack toks = l)
    (hen : l.enable = 1)
    (hup : listen_interface_is_down env l.sw_if_index = false)
    (hrv : (env.igmp_listen im l.enable l.sw_if_index l.saddr l.gaddr
      env.IGMP_CONFIG_FLAG_CLI_API_CONFIGURED).1 = -1) :
    (igmp_listen_command_fn env im (some toks) stack).error
        = some (clib_error_t.msg "This igmp configuration already exists") ∧
      (igmp_listen_command_fn env im (some toks) stack).error
        ≠ some (clib_error_t.msg "This igmp configuration does not nexist") ∧
      (igmp_listen_command_fn env im (some toks) stack).error
        ≠ some (clib_error_t.msg "Failed to add configuration, interface is in router mode") ∧
      (igmp_listen_command_fn env im (some toks) stack).calls
        = [Call.igmp_listen l.enable l.sw_if_index l.saddr l.gaddr
            env.IGMP_CONFIG_FLAG_CLI_API_CONFIGURED] ∧
      (igmp_listen_command_fn env im (some toks) stack).im
        = (env.igmp_listen im l.enable l.sw_if_index l.saddr l.gaddr
            env.IGMP_CONFIG_FLAG_CLI_API_CONFIGURED).2 := by
  simp only [hen] at hrv
  simp only [igmp_listen_command_fn, igmp_listen_parse_request stack toks hwf, hl, hen]
  simp [hup, hrv]

/-- C3: a well-formed `igmp listen` line asking for disable, on an interface that
passes the check of lines 124-125, for which `igmp_listen` returns -1: the
command returns "This igmp configuration does not nexist", not the duplicate or
the router-mode error. -/
theorem listen_disable_not_found (env : Env) (im : igmp_main_t) (toks : List Tok)
    (stack l : listen_locals)
    (hwf : toks.all Tok.listen_accepts = true)
    (hl : listen_request stack toks = l)
    (hdis : l.enable = 0)
    (hup : listen_interface_is_down env l.sw_if_index = false)
    (hrv : (env.igmp_listen im l.enable l.sw_if_index l.saddr l.gaddr
      env.IGMP_CONFIG_FLAG_CLI_API_CONFIGURED).1 = -1) :
    (igmp_listen_command_fn env im (some toks) stack).error
        = some (clib_error_t.msg "This igmp configuration does not nexist") ∧
      (igmp_listen_command_fn env im (some toks) stack).error
        ≠ some (clib_error_t.msg "This igmp configuration already exists") ∧
      (igmp_listen_command_fn env im (some toks) stack).error
        ≠ some (clib_error_t.msg
            "Failed to add configuration, interface is in router mode") := by
  simp only [hdis] at hrv
  simp only [igmp_listen_command_fn, igmp_listen_parse_request stack toks hwf, hl, hdis]
  simp [hup, hrv]

/-- C4: for a well-formed `igmp listen` line on an interface that passes the
check of lines 124-125, the command returns "Failed to add configuration,
interface is in router mode" exactly when `igmp_listen` returns -2, whatever the
requested mode; and on any input at all that error is returned only after one
call of `igmp_listen` that returned -2. -/
theorem listen_router_mode_conflict (env : Env) (im : igmp_main_t) (toks : List Tok)
    (stack l : listen_locals)
    (hwf : toks.all Tok.listen_accepts = true)
    (hl : listen_request stack toks = l)
    (hup : listen_interface_is_down env l.sw_if_index = false) :
    ((igmp_listen_command_fn env im (some toks) stack).error
        = some (clib_error_t.msg "Failed to add configuration, interface is in router mode")
      ↔ (env.igmp_listen im l.enable l.sw_if_index l.saddr l.gaddr
          env.IGMP_CONFIG_FLAG_CLI_API_CONFIGURED).1 = -2) ∧
    (∀ (input : Option (List Tok)) (stack0 : listen_locals),
      (igmp_listen_command_fn env im input stack0).error
        = some (clib_error_t.msg "Failed to add configuration, interface is in router mode") →
      ∃ en sw s g,
        (igmp_listen_command_fn env im input stack0).calls
          = [Call.igmp_listen en sw s g env.IGMP_CONFIG_FLAG_CLI_API_CONFIGURED] ∧
        (env.igmp_listen im en sw s g env.IGMP_CONFIG_FLAG_CLI_API_CONFIGURED).1 = -2) := by
  subst hl
  constructor
  · simp only [igmp_listen_command_fn, igmp_listen_parse_request stack toks hwf]
    simp only [hup, Bool.false_eq_true, if_false]
    split_ifs <;> simp_all
  · intro input stack0
    cases input with
    | none => simp [igmp_listen_command_fn]
    | some line =>
      simp only [igmp_listen_command_fn]
      cases hp : igmp_listen_parse { stack0 with enable := 1 } line with
      | error e =>
        obtain ⟨rest, rfl⟩ := igmp_listen_parse_error_unknown line _ e hp
        simp
      | ok l0 =>
        simp only
        split_ifs with h1 h2 h3 h4
        · simp
        · simp
        · simp
        · intro _
          exact ⟨l0.enable, l0.sw_if_index, l0.saddr, l0.gaddr, rfl, h4⟩
        · simp

/-- Witness for C2: `igmp listen enable int 3 saddr 1 gaddr 2`
with `igmp_listen` returning -1. -/
theorem listen_enable_duplicate_witness :
    [Tok.enable, Tok.int 3, Tok.saddr 1, Tok.gaddr 2].all Tok.listen_accepts = true ∧
      listen_request ⟨0, 0, 0, 0⟩ [Tok.enable, Tok.int 3, Tok.saddr 1, Tok.gaddr 2] = ⟨1, 3, 1, 2⟩ ∧
      listen_interface_is_down (env_admin_up (-1)) 3 = false ∧
      (igmp_listen_command_fn (env_admin_up (-1)) { configs := [] }
        (some [Tok.enable, Tok.int 3, Tok.saddr 1, Tok.gaddr 2]) ⟨0, 0, 0, 0⟩).error
        = some (clib_error_t.msg "This igmp configuration already exists") :=
  ⟨by decide, by decide, by decide,
    (listen_enable_duplicate (env_admin_up (-1)) { configs := [] }
      [Tok.enable, Tok.int 3, Tok.saddr 1, Tok.gaddr 2] ⟨0, 0, 0, 0⟩ ⟨1, 3, 1, 2⟩
      (by decide) (by decide) rfl (by decide) (by decide)).1⟩

/-- Witness for C3: `igmp listen disable int 3 saddr 1 gaddr 2`
with `igmp_listen` returning -1. -/
theorem listen_disable_not_found_witness :
    [Tok.disable, Tok.int 3, Tok.saddr 1, Tok.gaddr 2].all Tok.listen_accepts = true ∧
      listen_request ⟨0, 0, 0, 0⟩ [Tok.disable, Tok.int 3, Tok.saddr 1, Tok.gaddr 2] = ⟨0, 3, 1, 2⟩ ∧
      listen_interface_is_down (env_admin_up (-1)) 3 = false ∧
      (igmp_listen_command_fn (env_admin_up (-1)) { configs := [] }
        (some [Tok.disable, Tok.int 3, Tok.saddr 1, Tok.gaddr 2]) ⟨0, 0, 0, 0⟩).error
        = some (clib_error_t.msg "This igmp configuration does not nexist") :=
  ⟨by decide, by decide, by decide,
    (listen_disable_not_found (env_admin_up (-1)) { configs := [] }
      [Tok.disable, Tok.int 3, Tok.saddr 1, Tok.gaddr 2] ⟨0, 0, 0, 0⟩ ⟨0, 3, 1, 2⟩
      (by decide) (by decide) rfl (by decide) (by decide)).1⟩

/-- Witness for C4: `igmp listen disable int 3 saddr 1
gaddr 2` with `igmp_listen` returning -2. -/
theorem listen_router_mode_conflict_witness :
    [Tok.disable, Tok.int 3, Tok.saddr 1, Tok.gaddr 2].all Tok.listen_accepts = true ∧
      listen_interface_is_down (env_admin_up (-2)) 3 = false ∧
      (igmp_listen_command_fn (env_admin_up (-2)) { configs := [] }
        (some [Tok.disable, Tok.int 3, Tok.saddr 1, Tok.gaddr 2]) ⟨0, 0, 0, 0⟩).error
        = some (clib_error_t.msg "Failed to add configuration, interface is in router mode") :=
  ⟨by decide, by decide,
    (listen_router_mode_conflict (env_admin_up (-2)) { configs := [] }
      [Tok.disable, Tok.int 3, Tok.saddr 1, Tok.gaddr 2] ⟨0, 0, 0, 0⟩ ⟨0, 3, 1, 2⟩
      (by decide) (by decide) (by decide)).1.2 (by decide)⟩

/-- C9: for a well-formed `igmp listen` line the command returns no error
exactly when the interface passes the check of lines 124-125 and `igmp_listen`
returns neither -1 nor -2 (so also on 0, on a positive value and on any other
negative value); then `igmp_listen` was called exactly once, with the mode,
interface, source and group read off the line and the flag
`IGMP_CONFIG_FLAG_CLI_API_CONFIGURED`, and the tree is the one it left. -/
theorem listen_success_iff (env : Env) (im : igmp_main_t) (toks : List Tok)
    (stack l : listen_locals)
    (hwf : toks.all Tok.listen_accepts = true)
    (hl : listen_request stack toks = l) :
    ((igmp_listen_command_fn env im (some toks) stack).error = none ↔
      (listen_interface_is_down env l.sw_if_index = false ∧
        (env.igmp_listen im l.enable l.sw_if_index l.saddr l.gaddr
          env.IGMP_CONFIG_FLAG_CLI_API_CONFIGURED).1 ≠ -1 ∧
        (env.igmp_listen im l.enable l.sw_if_index l.saddr l.gaddr
          env.IGMP_CONFIG_FLAG_CLI_API_CONFIGURED).1 ≠ -2)) ∧
    ((igmp_listen_command_fn env im (some toks) stack).error = none →
      (igmp_listen_command_fn env im (some toks) stack).calls
          = [Call.igmp_listen l.enable l.sw_if_index l.saddr l.gaddr
              env.IGMP_CONFIG_FLAG_CLI_API_CONFIGURED] ∧
        (igmp_listen_command_fn env im (some toks) stack).im
          = (env.igmp_listen im l.enable l.sw_if_index l.saddr l.gaddr
              env.IGMP_CONFIG_FLAG_CLI_API_CONFIGURED).2) := by
  simp only [igmp_listen_command_fn, igmp_listen_parse_request stack toks hwf, hl]
  constructor
  · split_ifs <;> simp_all
  · split_ifs <;> simp_all

/-- Witness for C9: `igmp listen int 3 saddr 1 gaddr 2` with
`igmp_listen` returning -7 is reported as success. -/
theorem listen_success_iff_witness :
    [Tok.int 3, Tok.saddr 1, Tok.gaddr 2].all Tok.listen_accepts = true ∧
      (igmp_listen_command_fn (env_admin_up (-7)) { configs := [] }
        (some [Tok.int 3, Tok.saddr 1, Tok.gaddr 2]) ⟨0, 0, 0, 0⟩).error = none ∧
      (igmp_listen_command_fn (env_admin_up (-7)) { configs := [] }
        (some [Tok.int 3, Tok.saddr 1, Tok.gaddr 2]) ⟨0, 0, 0, 0⟩).calls
        = [Call.igmp_listen 1 3 1 2 1] :=
  ⟨by decide,
    (listen_success_iff (env_admin_up (-7)) { configs := [] }
      [Tok.int 3, Tok.saddr 1, Tok.gaddr 2] ⟨0, 0, 0, 0⟩ ⟨1, 3, 1, 2⟩
      (by decide) (by decide)).1.2 (by decide),
    ((listen_success_iff (env_admin_up (-7)) { configs := [] }
      [Tok.int 3, Tok.saddr 1, Tok.gaddr 2] ⟨0, 0, 0, 0⟩ ⟨1, 3, 1, 2⟩
      (by decide) (by decide)).2 (by decide)).1⟩

/-! ### `igmp listen`: the requested mode -/

/-- C10: the mode handed to `igmp_listen` is that of the last `enable` or
`disable` token of the line and is enable when the line has none.  Whenever the
parsing loop runs to the end of the line, the local `enable` is 0 exactly when
the last `enable`/`disable` token exists and is `disable`, and is 1 otherwise;
the loop does run to the end on every line of accepted tokens; every call of
`igmp_listen` made by the command carries that mode; and two lines with the same
sequence of `enable`/`disable` tokens yield the same mode wherever the other
tokens stand. -/
theorem listen_mode_last_token (env : Env) (im : igmp_main_t) (toks : List Tok)
    (stack : listen_locals) :
    (∀ l, igmp_listen_parse { stack with enable := 1 } toks = .ok l →
      (l.enable = 0 ↔ (toks.filter Tok.is_mode).getLast? = some Tok.disable) ∧
      (l.enable = 1 ↔ (toks.filter Tok.is_mode).getLast? ≠ some Tok.disable)) ∧
    (toks.all Tok.listen_accepts = true →
      ∃ l, igmp_listen_parse { stack with enable := 1 } toks = .ok l) ∧
    (∀ en sw s g f,
      Call.igmp_listen en sw s g f ∈ (igmp_listen_command_fn env im (some toks) stack).calls →
      (en = 0 ↔ (toks.filter Tok.is_mode).getLast? = some Tok.disable) ∧
      (en = 1 ↔ (toks.filter Tok.is_mode).getLast? ≠ some Tok.disable)) ∧
    (∀ (toks0 : List Tok) (stack0 l l0 : listen_locals),
      toks0.filter Tok.is_mode = toks.filter Tok.is_mode →
      igmp_listen_parse { stack with enable := 1 } toks = .ok l →
      igmp_listen_parse { stack0 with enable := 1 } toks0 = .ok l0 →
      l0.enable = l.enable) := by
  have key : ∀ (ts : List Tok) (st l : listen_locals),
      igmp_listen_parse { st with enable := 1 } ts = .ok l →
      l.enable = if (ts.filter Tok.is_mode).getLast? = some Tok.disable then 0 else 1 := by
    intro ts st l h
    cases hall : ts.all Tok.listen_accepts with
    | false => rw [igmp_listen_parse_error ts _ hall] at h; cases h
    | true =>
      rw [igmp_listen_parse_request st ts hall] at h
      cases h
      rfl
  have modes : ∀ (ts : List Tok) (e : Nat),
      e = (if (ts.filter Tok.is_mode).getLast? = some Tok.disable then 0 else 1) →
      (e = 0 ↔ (ts.filter Tok.is_mode).getLast? = some Tok.disable) ∧
      (e = 1 ↔ (ts.filter Tok.is_mode).getLast? ≠ some Tok.disable) := by
    intro ts e he
    by_cases hd : (ts.filter Tok.is_mode).getLast? = some Tok.disable
    · simp [he, hd]
    · simp [he, hd]
  refine ⟨?_, ?_, ?_, ?_⟩
  · intro l h
    exact modes toks l.enable (key toks stack l h)
  · intro hwf
    exact ⟨_, igmp_listen_parse_request stack toks hwf⟩
  · intro en sw s g f hc
    simp only [igmp_listen_command_fn] at hc
    cases hp : igmp_listen_parse { stack with enable := 1 } toks with
    | error e => simp [hp] at hc
    | ok l =>
      have hen : en = l.enable := by
        simp only [hp] at hc
        split_ifs at hc <;> simp_all
      exact modes toks en (hen.trans (key toks stack l hp))
  · intro toks0 stack0 l l0 hf h h0
    rw [key toks stack l h, key toks0 stack0 l0 h0, hf]

/-- Witness for C10: in `disable int 3 enable saddr 1 disable
gaddr 2` the last mode token is `disable`, and `igmp_listen` is called with
mode 0. -/
theorem listen_mode_last_token_witness :
    igmp_listen_parse ⟨1, 0, 0, 0⟩
        [Tok.disable, Tok.int 3, Tok.enable, Tok.saddr 1, Tok.disable, Tok.gaddr 2]
        = .ok ⟨0, 3, 1, 2⟩ ∧
      Call.igmp_listen 0 3 1 2 1 ∈ (igmp_listen_command_fn (env_admin_up 0) { configs := [] }
        (some [Tok.disable, Tok.int 3, Tok.enable, Tok.saddr 1, Tok.disable, Tok.gaddr 2])
        ⟨0, 0, 0, 0⟩).calls ∧
      ([Tok.disable, Tok.int 3, Tok.enable, Tok.saddr 1, Tok.disable, Tok.gaddr 2].filter
        Tok.is_mode).getLast? = some Tok.disable :=
  ⟨rfl, by decide,
    ((listen_mode_last_token (env_admin_up 0) { configs := [] }
      [Tok.disable, Tok.int 3, Tok.enable, Tok.saddr 1, Tok.disable, Tok.gaddr 2]
      ⟨0, 0, 0, 0⟩).2.2.1 0 3 1 2 1 (by decide)).1.1 rfl⟩

/-! ### Malformed lines -/

/-- C7: an `igmp listen` line containing a token that is none of `enable`,
`disable`, `int <interface>`, `saddr <addr>`, `gaddr <addr>`, and a `clear igmp`
line containing a token that is not `int <interface>`, are answered with the
"unknown input" error carrying the line from the first such token on; no function
of `igmp.c` is called and the tree is returned as it was, whatever tokens precede
the offending one. -/
theorem malformed_line_rejected (env : Env) (im : igmp_main_t)
    (listen_line clear_line : List Tok) (stack : listen_locals) (stack_clear : Nat)
    (hl : ∃ t ∈ listen_line, t.listen_accepts = false)
    (hc : ∃ t ∈ clear_line, t.clear_accepts = false) :
    ((igmp_listen_command_fn env im (some listen_line) stack).error
        = some (clib_error_t.unknown_input (listen_line.dropWhile Tok.listen_accepts)) ∧
      (igmp_listen_command_fn env im (some listen_line) stack).calls = [] ∧
      (igmp_listen_command_fn env im (some listen_line) stack).im = im) ∧
    ((igmp_clear_interface_command_fn env im (some clear_line) stack_clear).error
        = some (clib_error_t.unknown_input (clear_line.dropWhile Tok.clear_accepts)) ∧
      (igmp_clear_interface_command_fn env im (some clear_line) stack_clear).calls = [] ∧
      (igmp_clear_interface_command_fn env im (some clear_line) stack_clear).im = im) := by
  have hl0 : listen_line.all Tok.listen_accepts = false := by
    obtain ⟨t, ht, hf⟩ := hl
    rw [List.all_eq_false]
    exact ⟨t, ht, by simp [hf]⟩
  have hc0 : clear_line.all Tok.clear_accepts = false := by
    obtain ⟨t, ht, hf⟩ := hc
    rw [List.all_eq_false]
    exact ⟨t, ht, by simp [hf]⟩
  constructor
  · simp [igmp_listen_command_fn, igmp_listen_parse_error listen_line _ hl0]
  · simp [igmp_clear_interface_command_fn, igmp_clear_parse_error clear_line _ hc0]

/-- Witness for C7: `igmp listen enable int 3 bogus saddr 1`
and `clear igmp int 3 enable`. -/
theorem malformed_line_rejected_witness :
    (igmp_listen_command_fn (env_admin_up 0) { configs := [] }
        (some [Tok.enable, Tok.int 3, Tok.other "bogus", Tok.saddr 1]) ⟨0, 0, 0, 0⟩).error
        = some (clib_error_t.unknown_input [Tok.other "bogus", Tok.saddr 1]) ∧
      (igmp_clear_interface_command_fn (env_admin_up 0) { configs := [] }
        (some [Tok.int 3, Tok.enable]) 0).error
        = some (clib_error_t.unknown_input [Tok.enable]) :=
  ⟨(malformed_line_rejected (env_admin_up 0) { configs := [] }
      [Tok.enable, Tok.int 3, Tok.other "bogus", Tok.saddr 1] [Tok.int 3, Tok.enable]
      ⟨0, 0, 0, 0⟩ 0 ⟨Tok.other "bogus", by decide, rfl⟩ ⟨Tok.enable, by decide, rfl⟩).1.1,
    (malformed_line_rejected (env_admin_up 0) { configs := [] }
      [Tok.enable, Tok.int 3, Tok.other "bogus", Tok.saddr 1] [Tok.int 3, Tok.enable]
      ⟨0, 0, 0, 0⟩ 0 ⟨Tok.other "bogus", by decide, rfl⟩ ⟨Tok.enable, by decide, rfl⟩).2.1⟩

/-! ### `show igmp config` -/

theorem show_srcs_eq (srcs : List igmp_src_t) :
    ∀ out, show_srcs out srcs = out ++ srcs.map fun s => Line.src s.addr := by
  induction srcs with
  | nil => intro out; simp [show_srcs]
  | cons s rest ih => intro out; simp [show_srcs, ih]

theorem show_groups_eq (groups : List igmp_group_t) :
    ∀ out, show_groups out groups = out ++ groups.flatMap fun g =>
      Line.group g.type g.addr :: g.srcs.map fun s => Line.src s.addr := by
  induction groups with
  | nil => intro out; simp [show_groups]
  | cons g rest ih => intro out; simp [show_groups, ih, show_srcs_eq]

theorem show_configs_eq (configs : List igmp_config_t) :
    ∀ out, show_configs out configs = out ++ show_spec { configs := configs } := by
  induction configs with
  | nil => intro out; simp [show_configs, show_spec]
  | cons c rest ih =>
    intro out
    rw [show_configs, ih, show_groups_eq]
    simp [show_spec]

theorem group_lines_length (groups : List igmp_group_t) :
    (groups.flatMap fun g =>
        Line.group g.type g.addr :: g.srcs.map fun s => Line.src s.addr).length
      = groups.length + (groups.map fun g => g.srcs.length).sum := by
  induction groups with
  | nil => rfl
  | cons g rest ih =>
    simp only [List.flatMap_cons, List.length_append, List.length_cons, List.length_map, ih,
      List.map_cons, List.sum_cons]
    omega

theorem show_spec_length (configs : List igmp_config_t) :
    (show_spec { configs := configs }).length
      = configs.length + igmp_main_t.n_groups { configs := configs }
        + igmp_main_t.n_srcs { configs := configs } := by
  induction configs with
  | nil => rfl
  | cons c rest ih =>
    simp only [show_spec, igmp_main_t.n_groups, igmp_main_t.n_srcs] at ih ⊢
    simp only [List.flatMap_cons, List.length_append, List.length_cons, ih, group_lines_length,
      List.map_cons, List.sum_cons]
    omega

theorem listed_src_lines_skip (i : Nat) (G S : ip46_address_t) (ci : Option Nat)
    (cg : Option ip46_address_t) (srcs : List igmp_src_t) (rest : List Line)
    (h : listed i G S ci cg rest = true) :
    listed i G S ci cg ((srcs.map fun s => Line.src s.addr) ++ rest) = true := by
  induction srcs with
  | nil => simpa using h
  | cons s tl ih => simp [listed, ih]

theorem listed_src_lines_hit (i : Nat) (G S : ip46_address_t) (srcs : List igmp_src_t)
    (rest : List Line) (h : ∃ s ∈ srcs, s.addr = S) :
    listed i G S (some i) (some G) ((srcs.map fun s => Line.src s.addr) ++ rest) = true := by
  induction srcs with
  | nil => simp at h
  | cons s tl ih =>
    by_cases hs : s.addr = S
    · simp [listed, hs]
    · have htl : ∃ s ∈ tl, s.addr = S := by
        obtain ⟨x, hx, hxS⟩ := h
        rcases List.mem_cons.1 hx with rfl | hx
        · exact absurd hxS hs
        · exact ⟨x, hx, hxS⟩
      simp [listed, ih htl]

theorem listed_group_lines (i : Nat) (G S : ip46_address_t) (groups : List igmp_group_t) :
    ∀ (cg : Option ip46_address_t) (rest : List Line),
      (∃ g ∈ groups, g.addr = G ∧ ∃ s ∈ g.srcs, s.addr = S) →
      listed i G S (some i) cg
        ((groups.flatMap fun g =>
          Line.group g.type g.addr :: g.srcs.map fun s => Line.src s.addr) ++ rest) = true := by
  induction groups with
  | nil => intro cg rest h; simp at h
  | cons g tl ih =>
    intro cg rest h
    have e : ((g :: tl).flatMap fun g =>
          Line.group g.type g.addr :: g.srcs.map fun s => Line.src s.addr) ++ rest
        = Line.group g.type g.addr :: ((g.srcs.map fun s => Line.src s.addr) ++
          ((tl.flatMap fun g =>
            Line.group g.type g.addr :: g.srcs.map fun s => Line.src s.addr) ++ rest)) := by
      simp
    rw [e, listed]
    by_cases hg : g.addr = G ∧ ∃ s ∈ g.srcs, s.addr = S
    · rw [hg.1]
      exact listed_src_lines_hit i G S g.srcs _ hg.2
    · apply listed_src_lines_skip
      apply ih
      obtain ⟨x, hx, hxG⟩ := h
      rcases List.mem_cons.1 hx with rfl | hx
      · exact absurd hxG hg
      · exact ⟨x, hx, hxG⟩

theorem listed_group_lines_skip (i : Nat) (G S : ip46_address_t) (groups : List igmp_group_t)
    (rest : List Line) (h : ∀ ci cg, listed i G S ci cg rest = true) :
    ∀ ci cg, listed i G S ci cg
      ((groups.flatMap fun g =>
        Line.group g.type g.addr :: g.srcs.map fun s => Line.src s.addr) ++ rest) = true := by
  induction groups with
  | nil => intro ci cg; simpa using h ci cg
  | cons g tl ih =>
    intro ci cg
    have e : ((g :: tl).flatMap fun g =>
          Line.group g.type g.addr :: g.srcs.map fun s => Line.src s.addr) ++ rest
        = Line.group g.type g.addr :: ((g.srcs.map fun s => Line.src s.addr) ++
          ((tl.flatMap fun g =>
            Line.group g.type g.addr :: g.srcs.map fun s => Line.src s.addr) ++ rest)) := by
      simp
    rw [e, listed]
    exact listed_src_lines_skip i G S _ _ g.srcs _ (ih _ _)

theorem listed_show_spec (i : Nat) (G S : ip46_address_t) (configs : List igmp_config_t)
    (h : ∃ c ∈ configs, c.sw_if_index = i ∧ ∃ g ∈ c.groups, g.addr = G ∧
      ∃ s ∈ g.srcs, s.addr = S) :
    ∀ ci cg, listed i G S ci cg (show_spec { configs := configs }) = true := by
  induction configs with
  | nil => simp at h
  | cons c tl ih =>
    intro ci cg
    have e : show_spec { configs := c :: tl }
        = Line.interface c.sw_if_index :: ((c.groups.flatMap fun g =>
            Line.group g.type g.addr :: g.srcs.map fun s => Line.src s.addr) ++
          show_spec { configs := tl }) := by
      simp [show_spec]
    rw [e, listed]
    by_cases hc : c.sw_if_index = i ∧ ∃ g ∈ c.groups, g.addr = G ∧ ∃ s ∈ g.srcs, s.addr = S
    · rw [hc.1]
      exact listed_group_lines i G S c.groups none _ hc.2
    · apply listed_group_lines_skip
      apply ih
      obtain ⟨x, hx, hxi⟩ := h
      rcases List.mem_cons.1 hx with rfl | hx
      · exact absurd hxi hc
      · exact ⟨x, hx, hxi⟩

theorem add_src_to_groups_has (type : Nat) (G S : ip46_address_t) (groups : List igmp_group_t) :
    ∃ g ∈ add_src_to_groups type G S groups, g.addr = G ∧ ∃ s ∈ g.srcs, s.addr = S := by
  induction groups with
  | nil => simp [add_src_to_groups]
  | cons g tl ih =>
    unfold add_src_to_groups
    split_ifs with hg
    · exact ⟨_, List.mem_cons_self _ _, hg, ⟨S⟩, by simp, rfl⟩
    · obtain ⟨x, hx, hxG⟩ := ih
      exact ⟨x, List.mem_cons_of_mem _ hx, hxG⟩

theorem add_src_to_configs_has (type i : Nat) (G S : ip46_address_t)
    (configs : List igmp_config_t) :
    ∃ c ∈ add_src_to_configs type i G S configs, c.sw_if_index = i ∧
      ∃ g ∈ c.groups, g.addr = G ∧ ∃ s ∈ g.srcs, s.addr = S := by
  induction configs with
  | nil =>
    exact ⟨_, List.mem_singleton.2 rfl, rfl, add_src_to_groups_has type G S []⟩
  | cons c tl ih =>
    unfold add_src_to_configs
    split_ifs with hc
    · exact ⟨_, List.mem_cons_self _ _, hc, add_src_to_groups_has type G S c.groups⟩
    · obtain ⟨x, hx, hxi⟩ := ih
      exact ⟨x, List.mem_cons_of_mem _ hx, hxi⟩

/-- C6: `igmp_show_command_fn` returns no error, calls nothing and leaves the
tree as it is; what it prints is, config by config in pool order, one interface
line followed by the lines of its groups in pool order, each group line followed
by one line per source of that group in pool order; that makes
#configs + #groups + #sources lines, and every source of the tree is read under
its own group under its own interface.  In particular, once `igmp listen enable
int eth0 saddr S gaddr G` has succeeded on a tree managed as the membership tree
is described to be, the listing shows source `S` under group `G` under `eth0`. -/
theorem show_lists_tree (env : Env) (router_mode : Nat → Bool) (type : Nat)
    (im : igmp_main_t) (input : Option (List Tok)) (eth0 : Nat) (G S : ip46_address_t)
    (stack : listen_locals) :
    ((igmp_show_command_fn im input).error = none ∧
      (igmp_show_command_fn im input).im = im ∧
      (igmp_show_command_fn im input).calls = []) ∧
    (igmp_show_command_fn im input).output = show_spec im ∧
    (igmp_show_command_fn im input).output.length
      = im.configs.length + im.n_groups + im.n_srcs ∧
    (∀ c ∈ im.configs, ∀ g ∈ c.groups, ∀ s ∈ g.srcs,
      listed c.sw_if_index g.addr s.addr none none (igmp_show_command_fn im input).output
        = true) ∧
    ((igmp_listen_command_fn (membership_env env router_mode type) im
        (some [Tok.enable, Tok.int eth0, Tok.saddr S, Tok.gaddr G]) stack).error = none →
      listed eth0 G S none none
        (igmp_show_command_fn
          (igmp_listen_command_fn (membership_env env router_mode type) im
            (some [Tok.enable, Tok.int eth0, Tok.saddr S, Tok.gaddr G]) stack).im
          input).output = true) := by
  have hout : ∀ m : igmp_main_t, (igmp_show_command_fn m input).output = show_spec m := by
    intro m
    simp [igmp_show_command_fn, show_configs_eq]
  refine ⟨⟨rfl, rfl, rfl⟩, hout im, ?_, ?_, ?_⟩
  · rw [hout im]
    exact show_spec_length im.configs
  · intro c hc g hg s hs
    rw [hout im]
    exact listed_show_spec _ _ _ im.configs ⟨c, hc, rfl, g, hg, rfl, s, hs, rfl⟩ none none
  · intro hok
    rw [hout]
    simp only [igmp_listen_command_fn, igmp_listen_parse, membership_env, igmp_listen] at hok ⊢
    split_ifs at hok ⊢ <;> simp_all
    exact listed_show_spec _ _ _ _ (add_src_to_configs_has type eth0 G S im.configs) none none

/-- Witness for C6: on the empty tree, with interface 1 admin-up
and not in router mode, `igmp listen enable int 1 saddr 10.0.0.1 gaddr 239.1.1.1`
succeeds and `show igmp config` then prints the interface line, the group line
and the source line. -/
theorem show_lists_tree_witness :
    (igmp_listen_command_fn (membership_env (env_admin_up 0) (fun _ => false) 3)
        { configs := [] }
        (some [Tok.enable, Tok.int 1, Tok.saddr 167772161, Tok.gaddr 4009820417])
        ⟨0, 0, 0, 0⟩).error = none ∧
      (igmp_show_command_fn
        (igmp_listen_command_fn (membership_env (env_admin_up 0) (fun _ => false) 3)
          { configs := [] }
          (some [Tok.enable, Tok.int 1, Tok.saddr 167772161, Tok.gaddr 4009820417])
          ⟨0, 0, 0, 0⟩).im none).output
        = [Line.interface 1, Line.group 3 4009820417, Line.src 167772161] ∧
      listed 1 4009820417 167772161 none none
        (igmp_show_command_fn
          (igmp_listen_command_fn (membership_env (env_admin_up 0) (fun _ => false) 3)
            { configs := [] }
            (some [Tok.enable, Tok.int 1, Tok.saddr 167772161, Tok.gaddr 4009820417])
            ⟨0, 0, 0, 0⟩).im none).output = true :=
  ⟨by decide, by decide,
    (show_lists_tree (env_admin_up 0) (fun _ => false) 3 { configs := [] } none 1
      4009820417 167772161 ⟨0, 0, 0, 0⟩).2.2.2.2 (by decide)⟩

/-! ### `clear igmp` -/

theorem interface_line_mem_show_spec (i : Nat) (configs : List igmp_config_t)
    (h : Line.interface i ∈ show_spec { configs := configs }) :
    ∃ c ∈ configs, c.sw_if_index = i := by
  simp only [show_spec, List.mem_flatMap, List.mem_cons, List.mem_map] at h
  obtain ⟨c, hc, h⟩ := h
  rcases h with h | ⟨g, _, h | ⟨s, _, h⟩⟩
  · exact ⟨c, hc, by cases h; rfl⟩
  · cases h
  · cases h

theorem lines_under_eq_nil (i : Nat) (out : List Line) (h : Line.interface i ∉ out) :
    lines_under i false out = [] := by
  induction out with
  | nil => rfl
  | cons l rest ih =>
    have hrest : Line.interface i ∉ rest := fun hm => h (List.mem_cons_of_mem _ hm)
    cases l with
    | interface j =>
      have hj : (j == i) = false := by
        simp only [beq_eq_false_iff_ne, ne_eq]
        rintro rfl
        exact h (List.mem_cons_self _ _)
      rw [lines_under, hj]
      exact ih hrest
    | group t a => simpa [lines_under] using ih hrest
    | src a => simpa [lines_under] using ih hrest

theorem pool_find_eq_none {α : Type} (p : α → Bool) (l : List α) :
    pool_find p l = none ↔ ∀ x ∈ l, p x = false := by
  induction l with
  | nil => simp [pool_find]
  | cons x xs ih =>
    unfold pool_find
    by_cases hx : p x = true
    · simp [hx]
    · simp [hx, ih]

theorem pool_find_eq_some {α : Type} (p : α → Bool) (l : List α) :
    ∀ k, pool_find p l = some k → ∃ x, l[k]? = some x ∧ p x = true := by
  induction l with
  | nil => intro k h; simp [pool_find] at h
  | cons x xs ih =>
    intro k h
    unfold pool_find at h
    by_cases hx : p x = true
    · simp only [hx, if_true, Option.some.injEq] at h
      subst h
      exact ⟨x, by simp, hx⟩
    · simp only [hx, Bool.false_eq_true, if_false, Option.map_eq_some'] at h
      obtain ⟨j, hj, rfl⟩ := h
      obtain ⟨y, hy, hpy⟩ := ih j hj
      exact ⟨y, by simpa using hy, hpy⟩

theorem eraseIdx_pool_find_filter (i : Nat) (configs : List igmp_config_t) :
    ∀ k, pool_find (fun c => c.sw_if_index == i) configs = some k →
      (configs.eraseIdx k).filter (fun c => c.sw_if_index != i)
        = configs.filter (fun c => c.sw_if_index != i) := by
  induction configs with
  | nil => intro k h; simp [pool_find] at h
  | cons c tl ih =>
    intro k h
    unfold pool_find at h
    by_cases hc : c.sw_if_index = i
    · simp only [hc, beq_self_eq_true, if_true, Option.some.injEq] at h
      subst h
      simp [hc]
    · have hb : (c.sw_if_index == i) = false := by simpa using hc
      simp only [hb, Bool.false_eq_true, if_false, Option.map_eq_some'] at h
      obtain ⟨j, hj, rfl⟩ := h
      simp [List.filter_cons, ih j hj]

theorem eraseIdx_pool_find_nodup (i : Nat) (configs : List igmp_config_t)
    (hnd : (configs.map fun c => c.sw_if_index).Nodup) :
    ∀ k, pool_find (fun c => c.sw_if_index == i) configs = some k →
      ∀ c ∈ configs.eraseIdx k, c.sw_if_index ≠ i := by
  induction configs with
  | nil => intro k h; simp [pool_find] at h
  | cons c tl ih =>
    intro k h
    rw [List.map_cons, List.nodup_cons] at hnd
    unfold pool_find at h
    by_cases hc : c.sw_if_index = i
    · simp only [hc, beq_self_eq_true, if_true, Option.some.injEq] at h
      subst h
      intro x hx hxi
      rw [List.eraseIdx_cons_zero] at hx
      apply hnd.1
      rw [hc, ← hxi]
      exact List.mem_map_of_mem _ hx
    · have hb : (c.sw_if_index == i) = false := by simpa using hc
      simp only [hb, Bool.false_eq_true, if_false, Option.map_eq_some'] at h
      obtain ⟨j, hj, rfl⟩ := h
      intro x hx
      rw [List.eraseIdx_cons_succ] at hx
      rcases List.mem_cons.1 hx with rfl | hx
      · exact hc
      · exact ih hnd.2 j hj x hx

/-- C5: for a `clear igmp` line of `int` tokens the last of which names interface
`i`, `igmp_clear_interface_command_fn` returns no error; it calls
`igmp_config_lookup` once, for `i`, and then, exactly when a config was found,
`igmp_clear_config` once on that config and nothing else, the resulting tree
being the one `igmp_clear_config` leaves (the tree as it was when no config was
found).  With lookup by interface and removal of the config subtree as the
membership tree is described: the config handed to `igmp_clear_config` is one of
interface `i`; without a config of `i` only the lookup is made and the tree is
unchanged; the configs of the other interfaces are kept as they are, in order;
and when no two configs share an interface, `show igmp config` afterwards prints
no interface line for `i` and no group or source line under `i`. -/
theorem clear_interface_removes_config (env : Env) (router_mode : Nat → Bool) (type : Nat)
    (im : igmp_main_t) (toks : List Tok) (stack i : Nat)
    (hwf : toks.all Tok.clear_accepts = true)
    (hi : (toks.filterMap Tok.as_int).getLast? = some i) :
    ((igmp_clear_interface_command_fn env im (some toks) stack).error = none ∧
      (igmp_clear_interface_command_fn env im (some toks) stack).calls
        = Call.igmp_config_lookup i ::
          (match env.igmp_config_lookup im i with
            | some config => [Call.igmp_clear_config config]
            | none => []) ∧
      (igmp_clear_interface_command_fn env im (some toks) stack).im
        = (match env.igmp_config_lookup im i with
            | some config => env.igmp_clear_config im config
            | none => im)) ∧
    (∀ config, igmp_config_lookup im i = some config →
      ∃ c, im.configs[config]? = some c ∧ c.sw_if_index = i) ∧
    ((∀ c ∈ im.configs, c.sw_if_index ≠ i) →
      (igmp_clear_interface_command_fn (membership_env env router_mode type) im
          (some toks) stack).calls = [Call.igmp_config_lookup i] ∧
        (igmp_clear_interface_command_fn (membership_env env router_mode type) im
          (some toks) stack).im = im) ∧
    ((igmp_clear_interface_command_fn (membership_env env router_mode type) im
        (some toks) stack).im.configs.filter (fun c => c.sw_if_index != i)
      = im.configs.filter (fun c => c.sw_if_index != i)) ∧
    ((im.configs.map fun c => c.sw_if_index).Nodup →
      Line.interface i ∉ (igmp_show_command_fn
          (igmp_clear_interface_command_fn (membership_env env router_mode type) im
            (some toks) stack).im none).output ∧
        lines_under i false (igmp_show_command_fn
          (igmp_clear_interface_command_fn (membership_env env router_mode type) im
            (some toks) stack).im none).output = []) := by
  have hparse : igmp_clear_parse stack toks = .ok i := by
    rw [igmp_clear_parse_ok toks stack hwf, hi]
    rfl
  have hcmd : ∀ e : Env, igmp_clear_interface_command_fn e im (some toks) stack
      = (match e.igmp_config_lookup im i with
          | some config =>
            { error := none, im := e.igmp_clear_config im config,
              calls := [Call.igmp_config_lookup i, Call.igmp_clear_config config],
              output := [] }
          | none =>
            { error := none, im := im, calls := [Call.igmp_config_lookup i],
              output := [] }) := by
    intro e
    simp only [igmp_clear_interface_command_fn, hparse]
  have hnone : (∀ c ∈ im.configs, c.sw_if_index ≠ i) → igmp_config_lookup im i = none := by
    intro h
    rw [igmp_config_lookup, pool_find_eq_none]
    intro c hc
    simpa using h c hc
  refine ⟨?_, ?_, ?_, ?_, ?_⟩
  · rw [hcmd env]
    cases env.igmp_config_lookup im i <;> exact ⟨rfl, rfl, rfl⟩
  · intro config h
    obtain ⟨c, hc, hp⟩ := pool_find_eq_some _ _ _ h
    exact ⟨c, hc, by simpa using hp⟩
  · intro h
    rw [hcmd]
    simp [membership_env, hnone h]
  · rw [hcmd]
    simp only [membership_env]
    cases hk : igmp_config_lookup im i with
    | none => rfl
    | some k => exact eraseIdx_pool_find_filter i im.configs k hk
  · intro hnd
    have hno : Line.interface i ∉ (igmp_show_command_fn
        (igmp_clear_interface_command_fn (membership_env env router_mode type) im
          (some toks) stack).im none).output := by
      rw [hcmd]
      simp only [membership_env, igmp_show_command_fn, show_configs_eq, List.nil_append]
      intro hmem
      obtain ⟨c, hc, hci⟩ := interface_line_mem_show_spec i _ hmem
      cases hk : igmp_config_lookup im i with
      | none =>
        rw [hk] at hc
        have := (pool_find_eq_none _ _).1 hk c hc
        simp [hci] at this
      | some k =>
        rw [hk] at hc
        exact eraseIdx_pool_find_nodup i im.configs hnd k hk c hc hci
    exact ⟨hno, lines_under_eq_nil i _ hno⟩

/-- Witness for C5: `clear igmp int 2` on
`sample_tree` removes the config of interface 2 with its two groups and two
sources; `show igmp config` then prints the lines of interface 1 only. -/
theorem clear_interface_removes_config_witness :
    [Tok.int 2].all Tok.clear_accepts = true ∧
      ([Tok.int 2].filterMap Tok.as_int).getLast? = some 2 ∧
      (sample_tree.configs.map fun c => c.sw_if_index).Nodup ∧
      (igmp_show_command_fn
        (igmp_clear_interface_command_fn (membership_env (env_admin_up 0) (fun _ => false) 3)
          sample_tree (some [Tok.int 2]) 0).im none).output
        = [Line.interface 1, Line.group 3 4009820417, Line.src 167772161] ∧
      lines_under 2 false (igmp_show_command_fn
        (igmp_clear_interface_command_fn (membership_env (env_admin_up 0) (fun _ => false) 3)
          sample_tree (some [Tok.int 2]) 0).im none).output = [] :=
  ⟨by decide, by decide, by decide, by decide,
    ((clear_interface_removes_config (env_admin_up 0) (fun _ => false) 3 sample_tree
      [Tok.int 2] 0 2 (by decide) (by decide)).2.2.2.2 (by decide)).2⟩

/-! ### Interfaces stay unique in the tree -/

theorem add_src_to_configs_interfaces (type i : Nat) (G S : ip46_address_t)
    (configs : List igmp_config_t) :
    (add_src_to_configs type i G S configs).map (fun c => c.sw_if_index)
      = if i ∈ configs.map (fun c => c.sw_if_index) then configs.map (fun c => c.sw_if_index)
        else configs.map (fun c => c.sw_if_index) ++ [i] := by
  induction configs with
  | nil => simp [add_src_to_configs]
  | cons c tl ih =>
    unfold add_src_to_configs
    by_cases hc : c.sw_if_index = i
    · simp [hc]
    · have hne : ¬ i = c.sw_if_index := fun h => hc h.symm
      simp only [hc, if_false, List.map_cons, ih, List.mem_cons, hne, false_or]
      split_ifs <;> simp

theorem igmp_listen_keeps_interfaces_unique (router_mode : Nat → Bool) (type : Nat)
    (im : igmp_main_t) (enable sw_if_index : Nat) (saddr gaddr : ip46_address_t) (flags : Nat)
    (h : (im.configs.map fun c => c.sw_if_index).Nodup) :
    ((igmp_listen router_mode type im enable sw_if_index saddr gaddr flags).2.configs.map
      fun c => c.sw_if_index).Nodup := by
  unfold igmp_listen
  split_ifs
  · exact h
  · exact h
  · simp only [add_src_to_configs_interfaces]
    split_ifs with hm
    · exact h
    · rw [List.nodup_append]
      exact ⟨h, List.nodup_singleton _, by
        intro a ha hb
        rw [List.mem_singleton] at hb
        exact hm (hb ▸ ha)⟩
  · have e : (remove_src_from_configs sw_if_index gaddr saddr im.configs).map
        (fun c => c.sw_if_index) = im.configs.map (fun c => c.sw_if_index) := by
      simp only [remove_src_from_configs, List.map_map]
      apply List.map_congr_left
      intro c _
      simp only [Function.comp]
      split_ifs <;> rfl
    simpa [e] using h
  · exact h

theorem igmp_clear_config_keeps_interfaces_unique (im : igmp_main_t) (config : Nat)
    (h : (im.configs.map fun c => c.sw_if_index).Nodup) :
    ((igmp_clear_config im config).configs.map fun c => c.sw_if_index).Nodup := by
  have hs : List.Sublist ((im.configs.eraseIdx config).map fun c => c.sw_if_index)
      (im.configs.map fun c => c.sw_if_index) :=
    (List.eraseIdx_sublist im.configs config).map _
  exact hs.nodup h

end Igmp

namespace VOM

/-- Witness for C8: two binds for interface 4 and host "h" that differ only in
the status of their `HW::item` are equal, and a third one that differs in the
broadcast flag equals neither; two unbinds with different hostnames differ. -/
theorem dhcp_cmd_equality_witness :
    bind_cmd.operator_eq ⟨StateCell.Unset, 4, "h", [1, 2], false⟩
        ⟨StateCell.Applied true, 4, "h", [1, 2], false⟩ = true ∧
      bind_cmd.operator_eq ⟨StateCell.Unset, 4, "h", [1, 2], false⟩
        ⟨StateCell.Unset, 4, "h", [1, 2], true⟩ = false ∧
      unbind_cmd.operator_eq ⟨StateCell.Unset, 4, "h"⟩ ⟨StateCell.Unset, 4, "g"⟩ = false :=
  ⟨(dhcp_cmd_equality.1 ⟨StateCell.Unset, 4, "h", [1, 2], false⟩
      ⟨StateCell.Applied true, 4, "h", [1, 2], false⟩).2 ⟨rfl, rfl, rfl, rfl⟩,
    by decide, by decide⟩

end VOM
